import Mathlib

/-!
Shallow embedding of the AutoForge web layer (src/src/autoforge/web_app.py),
together with spec-modelled fragments of the optimization core where the
core's code is not part of the repository snapshot.
-/

namespace AutoForge

/-! ### File-type validation (web_app.py, lines 51-57) -/

/-- Embeds `ALLOWED_EXTENSIONS = {'png', 'jpg', 'jpeg', 'bmp', 'webp'}`. -/
def ALLOWED_EXTENSIONS : List String := ["png", "jpg", "jpeg", "bmp", "webp"]

/-- Embeds `ALLOWED_MATERIAL_EXTENSIONS = {'csv', 'json'}`. -/
def ALLOWED_MATERIAL_EXTENSIONS : List String := ["csv", "json"]

/-- The characters after the last `'.'` of the list — Python's
`rsplit('.', 1)[1]` whenever a dot is present. -/
def afterLastDot (cs : List Char) : List Char :=
  cs.foldl (fun acc c => if c = '.' then [] else acc ++ [c]) []

/-- Embeds `allowed_file`: Python's
`'.' in filename and filename.rsplit('.', 1)[1].lower() in allowed_exts`,
working over the filename's character list.  Python's `str.lower` agrees with
per-character `Char.toLower` on the ASCII extensions being compared. -/
def allowed_file (filename : String) (allowed_exts : List String) : Bool :=
  filename.toList.contains '.' &&
    allowed_exts.any
      (fun e => e.toList == (afterLastDot filename.toList).map Char.toLower)

/-! ### The job registry (web_app.py, `active_jobs`) -/

/-- A job record of the `active_jobs` registry, restricted to the fields the
claims concern.  A fresh Python job dict has no `cancelled`, `error`, `outputs`
or `params` keys; reads use `.get` with defaults, modelled by `false` / `none`. -/
structure Job where
  status : String
  progress : Nat
  cancelled : Bool
  error : Option String
  outputs : Option (List String)
  hasParams : Bool

/-- The job stored on a successful upload (web_app.py lines 322-329). -/
def uploadedJob : Job :=
  { status := "uploaded", progress := 0, cancelled := false,
    error := none, outputs := none, hasParams := false }

/-- An upload request: the filenames of the `image` and `materials` multipart
fields, when the field is present at all. -/
structure UploadRequest where
  image : Option String
  materials : Option String

/-- Embeds `upload_files` (web_app.py lines 290-334).  The result is the HTTP
status code together with the registry after the request; a job keyed by
`newId` is inserted exactly on the success path. -/
def upload_files (registry : List (String × Job)) (req : UploadRequest)
    (newId : String) : Nat × List (String × Job) :=
  match req.image, req.materials with
  | none, _ => (400, registry)
  | some _, none => (400, registry)
  | some img, some mat =>
    if img = "" ∨ mat = "" then (400, registry)
    else if ¬ allowed_file img ALLOWED_EXTENSIONS then (400, registry)
    else if ¬ allowed_file mat ALLOWED_MATERIAL_EXTENSIONS then (400, registry)
    else (200, (newId, uploadedJob) :: registry)

/-- Embeds line 375, `active_jobs[job_id]['params'] = params`: the only
registry mutation `start_optimization` performs before spawning the thread. -/
def setParams (j : Job) : Job := { j with hasParams := true }

/-- Pointwise update of one registry entry. -/
def updateJob (registry : List (String × Job)) (id : String) (f : Job → Job) :
    List (String × Job) :=
  registry.map (fun p => if p.1 = id then (p.1, f p.2) else p)

/-- Embeds `start_optimization` (web_app.py lines 337-389).  The result is the
HTTP status code, the registry after the request, and whether the background
optimization thread was started.  Python's `not job_id` is true for a missing
key and for the empty string. -/
def start_optimization (registry : List (String × Job)) (job_id : Option String) :
    Nat × List (String × Job) × Bool :=
  match job_id with
  | none => (400, registry, false)
  | some id =>
    if id = "" then (400, registry, false)
    else
      match List.lookup id registry with
      | none => (400, registry, false)
      | some job =>
        if job.status ≠ "uploaded" then (400, registry, false)
        else (200, updateJob registry id setParams, true)

/-- Embeds `cancel_job` (web_app.py lines 408-417): sets the cooperative
cancellation flag and the status `cancelled`. -/
def cancel_job (j : Job) : Job := { j with cancelled := true, status := "cancelled" }

/-! ### The progress callback (web_app.py, lines 60-97) -/

/-- The payload of an emitted progress event (web_app.py lines 76-90). -/
structure ProgressEvent where
  job_id : String
  iteration : Int
  total_iterations : Int
  progress : Int
  loss : ℚ
  preview : Option (List Nat)

/-- The state of a `ProgressCallback` object: the job id and the time of the
last emitted update (initialised to 0 in `__init__`). -/
structure ProgressCallback where
  job_id : String
  last_update : ℚ

/-- Embeds `self.update_interval = 0.5  # seconds`. -/
def update_interval : ℚ := 1 / 2

/-- Embeds `ProgressCallback.update` (web_app.py lines 68-97).  Returns the
emitted event, if any, and the callback state afterwards.  Times are rational
seconds; Python's `int((iteration / total_iterations) * 100)` is modelled as
exact truncating integer division. -/
def ProgressCallback.update (st : ProgressCallback) (current_time : ℚ)
    (iteration total_iterations : Int) (loss : ℚ)
    (preview_image : Option (List Nat)) : Option ProgressEvent × ProgressCallback :=
  if current_time - st.last_update < update_interval ∧
      iteration < total_iterations - 1 then
    (none, st)
  else
    (some { job_id := st.job_id, iteration := iteration,
            total_iterations := total_iterations,
            progress := Int.tdiv (100 * iteration) total_iterations,
            loss := loss, preview := preview_image },
     { st with last_update := current_time })

/-! ### The optimization loop of the worker (web_app.py, lines 100-281) -/

/-- Outcome of the worker's `for i in range(iterations)` loop: normal
completion, or an exception carrying its message, the number of
`optimizer.step()` calls executed before it, and the optimizer state at that
point.  The optimizer state `σ` is abstract; `optimizer.step()` is an abstract
state transformer (it updates BestDiscreteSolution internally). -/
inductive LoopResult (σ : Type) where
  | completed (final : σ)
  | raised (msg : String) (stepsDone : Nat) (last : σ)

/-- One pass of the loop starting at iteration `i` with `fuel` iterations
remaining (web_app.py lines 179-192): poll the cancellation flag and raise
`Exception('Job cancelled by user')` if set; otherwise run `optimizer.step()`;
then invoke the progress callback, whose exception — there is no local handler
around it — propagates like any other.  `cancelled i` is the value of
`active_jobs[job_id].get('cancelled', False)` as read at the boundary of
iteration `i`; `cbFail i` says whether the callback raises at iteration `i`. -/
def runLoopFrom {σ : Type} (cancelled cbFail : Nat → Bool) (step : σ → σ) :
    Nat → σ → Nat → LoopResult σ
  | _, s, 0 => LoopResult.completed s
  | i, s, fuel + 1 =>
    if cancelled i then LoopResult.raised ("Job cancelled by user") i s
    else
      let s2 := step s
      if cbFail i then LoopResult.raised ("callback exception") (i + 1) s2
      else runLoopFrom cancelled cbFail step (i + 1) s2 fuel

/-- The worker's loop over `range(iterations)`, started at iteration 0. -/
def runLoop {σ : Type} (cancelled cbFail : Nat → Bool) (step : σ → σ)
    (s0 : σ) (iterations : Nat) : LoopResult σ :=
  runLoopFrom cancelled cbFail step 0 s0 iterations

/-- Embeds the outcome of `run_autoforge_optimization` on a job: status is set
to `running` at thread start (line 104); on normal loop completion the job is
marked `completed` with its output files (lines 254-261); any exception —
including the cancellation exception raised at line 181 — reaches the generic
handler (lines 268-281), which marks the job `failed` with the exception
message and records no outputs. -/
def run_autoforge_optimization {σ : Type} (job : Job)
    (cancelled cbFail : Nat → Bool) (step : σ → σ) (s0 : σ)
    (iterations : Nat) : Job × LoopResult σ :=
  let job1 := { job with status := "running" }
  let r := runLoop cancelled cbFail step s0 iterations
  match r with
  | LoopResult.completed _ =>
    ({ job1 with
        status := "completed"
        progress := 100
        outputs := some ["discretized.png", "model.stl",
                         "swap_instructions.txt", "project.json"] }, r)
  | LoopResult.raised msg _ _ =>
    ({ job1 with status := "failed", error := some msg }, r)

/-! ### Device setup (web_app.py, line 108) -/

/-- Embeds `device = torch.device('cuda' if torch.cuda.is_available() else
'cpu')`.  The second component records the log messages this step emits: the
source emits none — the fallback is silent. -/
def setupDevice (cuda_available : Bool) : String × List String :=
  (if cuda_available then "cuda" else "cpu", [])

/-! ### Normalization of the core's inputs (web_app.py, lines 111-128) -/

/-- An image as rows of RGB triples with rational components. -/
abbrev Image : Type := List (List (ℚ × ℚ × ℚ))

/-- Componentwise division of an RGB triple by 255, the `/ 255.0` of
web_app.py lines 116, 123 and 128. -/
def divTriple (c : ℚ × ℚ × ℚ) : ℚ × ℚ × ℚ := (c.1 / 255, c.2.1 / 255, c.2.2 / 255)

/-- The dictionary returned by the external `load_materials`: colors as
0-255 triples and the TD floats. -/
structure RawMaterials where
  colors : List (ℚ × ℚ × ℚ)
  TDs : List ℚ

/-- The tensors handed to the optimization core by the worker. -/
structure CoreInputs where
  material_colors : List (ℚ × ℚ × ℚ)
  material_TDs : List ℚ
  target_tensor : List (List (ℚ × ℚ × ℚ))
  background_tensor : ℚ × ℚ × ℚ
  processing_size : Nat

/-- Embeds web_app.py lines 111-128: material colors are divided by 255; the
target image is resized by the external `resize_image` helper (`resizeF`) to
`processing_size = stl_output_size // processing_reduction_factor` on both
axes and then divided by 255; the background 0-255 triple produced by the
external `hex_to_rgb` is divided by 255. -/
def prepareCoreInputs (materials : RawMaterials) (target_image : Image)
    (resizeF : Image → Nat → Nat → Image) (background_rgb : ℚ × ℚ × ℚ)
    (stl_output_size processing_reduction_factor : Nat) : CoreInputs :=
  let processing_size := stl_output_size / processing_reduction_factor
  { material_colors := materials.colors.map divTriple
    material_TDs := materials.TDs
    target_tensor :=
      (resizeF target_image processing_size processing_size).map (List.map divTriple)
    background_tensor := divTriple background_rgb
    processing_size := processing_size }

/-- All three components of a triple lie in `[lo, hi]`. -/
def inRange (lo hi : ℚ) (c : ℚ × ℚ × ℚ) : Prop :=
  lo ≤ c.1 ∧ c.1 ≤ hi ∧ lo ≤ c.2.1 ∧ c.2.1 ≤ hi ∧ lo ≤ c.2.2 ∧ c.2.2 ≤ hi

instance (lo hi : ℚ) (c : ℚ × ℚ × ℚ) : Decidable (inRange lo hi c) := by
  unfold inRange; infer_instance

/-- Every triple of the list lies in `[lo, hi]` componentwise. -/
def triplesIn (lo hi : ℚ) (l : List (ℚ × ℚ × ℚ)) : Prop :=
  ∀ c ∈ l, inRange lo hi c

instance (lo hi : ℚ) (l : List (ℚ × ℚ × ℚ)) : Decidable (triplesIn lo hi l) := by
  unfold triplesIn; infer_instance

/-! ### Spec-modelled fragments of the optimization core -/

/-- Modelled from the spec: the configuration validation of the optimization
core (`FilamentOptimizer`) is not under src/ — only its web-layer caller is.
Per the spec's error taxonomy, a `ConfigError` is an invalid or out-of-range
parameter, the given example being `min_layers > max_layers`, and it is raised
before the optimization loop runs. -/
def configCheck (min_layers max_layers : Int) : Except String Unit :=
  if max_layers < min_layers then Except.error ("ConfigError: min_layers > max_layers")
  else Except.ok ()

/-- The worker with the spec-modelled core validation placed where the core is
constructed, in front of the loop: on a `ConfigError` the worker's generic
exception handler marks the job `failed` with the error message and the
optimization loop is never entered (second component `none`). -/
def runWithConfig {σ : Type} (job : Job) (min_layers max_layers : Int)
    (cancelled cbFail : Nat → Bool) (step : σ → σ) (s0 : σ)
    (iterations : Nat) : Job × Option (LoopResult σ) :=
  match configCheck min_layers max_layers with
  | Except.error msg => ({ job with status := "failed", error := some msg }, none)
  | Except.ok _ =>
    let r := run_autoforge_optimization job cancelled cbFail step s0 iterations
    (r.1, some r.2)

/-- Modelled from the spec: the temperature schedule inside `FilamentOptimizer`
is not under src/.  The spec prescribes an explicit schedule function of
(iteration, total_iterations, init_tau, final_tau, warmup_fraction): a
monotonically non-increasing anneal from `init_tau`, with `warmup_fraction`
controlling how much of the total iterations the anneal spans, reaching
`final_tau` exactly at the final iteration when the fraction is 1.0.  Modelled
as a linear anneal over the first `warmup_fraction * (iterations - 1)`
iterations, clamped at `final_tau` thereafter. -/
def tauSchedule (init_tau final_tau warmup_fraction : ℚ) (iterations : Nat)
    (i : Nat) : ℚ :=
  init_tau + (final_tau - init_tau) *
    min 1 ((i : ℚ) / (warmup_fraction * ((iterations : ℚ) - 1)))

/-! ## Theorems -/

/-- Helper for the cancellation claim: when the cancellation flag reads true
from iteration `c` on and the callback never fails, the loop started at
iteration `i ≤ c` with enough fuel to reach `c` raises the cancellation
exception at the boundary of iteration `c`, with exactly `c - i` further
steps executed. -/
theorem runLoopFrom_cancel {σ : Type} (step : σ → σ) (c : Nat) :
    ∀ fuel i s, i ≤ c → c < i + fuel →
      runLoopFrom (fun j => decide (c ≤ j)) (fun _ => false) step i s fuel =
        LoopResult.raised ("Job cancelled by user") c (step^[c - i] s) := by
  intro fuel
  induction fuel with
  | zero => intro i s h1 h2; omega
  | succ n ih =>
    intro i s h1 h2
    by_cases hc : c ≤ i
    · have hic : i = c := le_antisymm h1 hc
      subst hic
      simp [runLoopFrom]
    · have hlt : i < c := lt_of_not_ge hc
      have hrec := ih (i + 1) (step s) (by omega) (by omega)
      simp only [runLoopFrom, decide_eq_true_eq, if_neg hc]
      rw [if_neg Bool.false_ne_true, hrec]
      have hsub : c - i = (c - (i + 1)) + 1 := by omega
      rw [hsub, Function.iterate_succ_apply]

/-- Claim C2: if the cancellation flag is set from iteration `c` on, for any
`c < iterations`, the loop polls the flag at the iteration boundary and halts
there with the cancellation exception, having executed exactly `c` optimizer
steps — so the optimizer state, which carries BestDiscreteSolution, is exactly
its last recorded value `step^[c] s0`, unchanged by the cancellation. -/
theorem cancel_halts_promptly {σ : Type} (step : σ → σ) (s0 : σ)
    (iterations c : Nat) (h : c < iterations) :
    runLoop (fun j => decide (c ≤ j)) (fun _ => false) step s0 iterations =
      LoopResult.raised ("Job cancelled by user") c (step^[c] s0) := by
  have hmain := runLoopFrom_cancel step c iterations 0 s0 (Nat.zero_le c) (by omega)
  simpa [runLoop] using hmain

theorem cancel_halts_promptly_witness :
    runLoop (fun j => decide (2 ≤ j)) (fun _ => false) Nat.succ (0 : Nat) 5 =
      LoopResult.raised ("Job cancelled by user") 2 2 :=
  (cancel_halts_promptly Nat.succ 0 5 2 (by omega)).trans rfl

/-- Claim C1, evaluated at the failing input: a running 5-iteration job that
the user cancels via /api/cancel ends with status `failed` — not `cancelled` —
because the worker's generic exception handler catches the cancellation
exception; the cancellation message is recorded as the job's error and no
outputs are recorded, so the terminal state is the failure state and carries
no partial results. -/
theorem cancelled_run_marked_failed :
    (run_autoforge_optimization (cancel_job { uploadedJob with status := "running" })
        (fun _ => true) (fun _ => false) Nat.succ (0 : Nat) 5).1.status = "failed"
    ∧ (run_autoforge_optimization (cancel_job { uploadedJob with status := "running" })
        (fun _ => true) (fun _ => false) Nat.succ (0 : Nat) 5).1.status ≠ "cancelled"
    ∧ (run_autoforge_optimization (cancel_job { uploadedJob with status := "running" })
        (fun _ => true) (fun _ => false) Nat.succ (0 : Nat) 5).1.error =
        some "Job cancelled by user"
    ∧ (run_autoforge_optimization (cancel_job { uploadedJob with status := "running" })
        (fun _ => true) (fun _ => false) Nat.succ (0 : Nat) 5).1.outputs = none := by
  refine ⟨rfl, by decide, rfl, rfl⟩

/-- Claim C3, evaluated at the failing input: the progress callback is invoked
inside the worker's try-block with no local handler, so an exception it raises
at its first invocation aborts a 5-iteration run after a single optimizer step
and the job is marked `failed` — the loop does not continue past the callback
failure. -/
theorem callback_failure_aborts :
    (run_autoforge_optimization { uploadedJob with status := "running" }
        (fun _ => false) (fun i => decide (i = 0)) Nat.succ (0 : Nat) 5).1.status =
        "failed"
    ∧ (run_autoforge_optimization { uploadedJob with status := "running" }
        (fun _ => false) (fun i => decide (i = 0)) Nat.succ (0 : Nat) 5).2 =
        LoopResult.raised ("callback exception") 1 1 :=
  ⟨rfl, rfl⟩

/-- Claim C5, counterexample: with CUDA unavailable the device selection falls
back to `cpu`, but the source logs nothing at this step — so it is not the
case that the fallback both selects the CPU and logs a warning. -/
theorem cuda_fallback_no_warning :
    ¬ ((setupDevice false).1 = "cpu" ∧ (setupDevice false).2 ≠ []) :=
  fun h => h.2 rfl

/-- Claim C5, amended: when CUDA is unavailable the system silently falls back
to the CPU rather than failing — no warning is logged — and a run on the
fallback path proceeds to completion. -/
theorem cuda_fallback_silent :
    setupDevice false = ("cpu", [])
    ∧ setupDevice true = ("cuda", [])
    ∧ (run_autoforge_optimization { uploadedJob with status := "running" }
        (fun _ => false) (fun _ => false) Nat.succ (0 : Nat) 3).1.status =
        "completed" :=
  ⟨rfl, rfl, rfl⟩

/-- Claim C4: the progress observer is time-throttled, not per-iteration: a
call to `ProgressCallback.update` emits no event exactly when less than the
0.5-second update interval has elapsed since the last emitted update and
`iteration < total_iterations - 1`; when `iteration ≥ total_iterations - 1`
it always emits, regardless of elapsed time, an event carrying the iteration,
the total iteration count, the loss and the optional preview image. -/
theorem progress_update_throttle (st : ProgressCallback) (ct : ℚ)
    (it tot : Int) (loss : ℚ) (prev : Option (List Nat)) :
    ((ProgressCallback.update st ct it tot loss prev).1 = none ↔
      ct - st.last_update < update_interval ∧ it < tot - 1)
    ∧ (tot - 1 ≤ it →
        (ProgressCallback.update st ct it tot loss prev).1 =
          some { job_id := st.job_id, iteration := it, total_iterations := tot,
                 progress := Int.tdiv (100 * it) tot, loss := loss,
                 preview := prev }) := by
  unfold ProgressCallback.update
  by_cases h : ct - st.last_update < update_interval ∧ it < tot - 1
  · rw [if_pos h]
    exact ⟨by simpa using h, fun hlate => absurd h.2 (not_lt.mpr hlate)⟩
  · rw [if_neg h]
    exact ⟨by simpa using h, fun _ => rfl⟩

theorem progress_update_throttle_witness :
    (ProgressCallback.update { job_id := "j", last_update := 0 } 0 4 5 1 none).1 =
      some { job_id := "j", iteration := 4, total_iterations := 5,
             progress := Int.tdiv (100 * 4) 5, loss := 1, preview := none } :=
  (progress_update_throttle { job_id := "j", last_update := 0 } 0 4 5 1 none).2
    (by decide)

/-- Claim C9: /api/start launches the optimization thread exactly when the
requested job id names an existing job whose status is `uploaded`; in every
other case it answers HTTP 400, leaves the registry unchanged and starts no
thread. -/
theorem start_gate (registry : List (String × Job)) (job_id : Option String) :
    ((start_optimization registry job_id).2.2 = true ↔
      ∃ id job, job_id = some id ∧ id ≠ "" ∧
        List.lookup id registry = some job ∧ job.status = "uploaded")
    ∧ ((start_optimization registry job_id).2.2 = false →
        start_optimization registry job_id = (400, registry, false)) := by
  cases job_id with
  | none => exact ⟨by simp [start_optimization], fun _ => rfl⟩
  | some id =>
    by_cases hid : id = ""
    · subst hid
      exact ⟨by simp [start_optimization], fun _ => by simp [start_optimization]⟩
    · cases hlook : List.lookup id registry with
      | none =>
        constructor
        · simp only [start_optimization, if_neg hid, hlook]
          simp only [Bool.false_eq_true, false_iff]
          rintro ⟨a, b, hab, -, hl, -⟩
          cases Option.some_inj.mp hab
          rw [hlook] at hl
          exact Option.noConfusion hl
        · intro _
          simp only [start_optimization, if_neg hid, hlook]
      | some job =>
        by_cases hst : job.status = "uploaded"
        · have hcond : ¬ (job.status ≠ "uploaded") := fun hne => hne hst
          constructor
          · simp only [start_optimization, if_neg hid, hlook, if_neg hcond]
            simp only [true_iff]
            exact ⟨id, job, rfl, hid, hlook, hst⟩
          · intro hfalse
            exfalso
            simp only [start_optimization, if_neg hid, hlook, if_neg hcond] at hfalse
            simp at hfalse
        · have hcond : (job.status ≠ "uploaded") := hst
          constructor
          · simp only [start_optimization, if_neg hid, hlook, if_pos hcond]
            simp only [Bool.false_eq_true, false_iff]
            rintro ⟨a, b, hab, -, hl, hs⟩
            cases Option.some_inj.mp hab
            rw [hlook] at hl
            cases Option.some_inj.mp hl
            exact hst hs
          · intro _
            simp only [start_optimization, if_neg hid, hlook, if_pos hcond]

theorem start_gate_witness :
    (start_optimization [("j1", uploadedJob)] (some "j1")).2.2 = true :=
  (start_gate [("j1", uploadedJob)] (some "j1")).1.mpr
    ⟨"j1", uploadedJob, rfl, by decide, rfl, rfl⟩

/-- Claim C10: the upload endpoint either creates exactly one new job, keyed
by the fresh id with status `uploaded`, answering 200, or answers 400 leaving
the registry unchanged; and it creates the job precisely when both multipart
fields are present with nonempty filenames whose final extension, compared
case-insensitively, lies in the respective allowed set. -/
theorem upload_validation (registry : List (String × Job)) (req : UploadRequest)
    (newId : String) :
    (upload_files registry req newId = (200, (newId, uploadedJob) :: registry)
      ∨ upload_files registry req newId = (400, registry))
    ∧ (upload_files registry req newId = (200, (newId, uploadedJob) :: registry) ↔
        ∃ img mat, req.image = some img ∧ req.materials = some mat ∧
          img ≠ "" ∧ mat ≠ "" ∧ allowed_file img ALLOWED_EXTENSIONS = true ∧
          allowed_file mat ALLOWED_MATERIAL_EXTENSIONS = true) := by
  obtain ⟨oi, om⟩ := req
  cases oi with
  | none =>
    refine ⟨Or.inr rfl, ?_⟩
    simp [upload_files]
  | some img =>
    cases om with
    | none =>
      refine ⟨Or.inr rfl, ?_⟩
      simp [upload_files]
    | some mat =>
      by_cases h1 : img = "" ∨ mat = ""
      · constructor
        · exact Or.inr (by simp only [upload_files, if_pos h1])
        · constructor
          · intro habs
            simp only [upload_files, if_pos h1] at habs
            have hfst := congrArg Prod.fst habs
            simp at hfst
          · rintro ⟨a, b, ha, hb, hne1, hne2, -, -⟩
            cases Option.some_inj.mp ha
            cases Option.some_inj.mp hb
            exact absurd h1 (by simp [hne1, hne2])
      · by_cases h2 : allowed_file img ALLOWED_EXTENSIONS = true
        · by_cases h3 : allowed_file mat ALLOWED_MATERIAL_EXTENSIONS = true
          · have hred : upload_files registry ⟨some img, some mat⟩ newId =
                (200, (newId, uploadedJob) :: registry) := by
              simp only [upload_files, if_neg h1]
              rw [if_neg (by simp [h2]), if_neg (by simp [h3])]
            constructor
            · exact Or.inl hred
            · constructor
              · intro _
                push_neg at h1
                exact ⟨img, mat, rfl, rfl, h1.1, h1.2, h2, h3⟩
              · intro _
                exact hred
          · have hred : upload_files registry ⟨some img, some mat⟩ newId =
                (400, registry) := by
              simp only [upload_files, if_neg h1]
              rw [if_neg (by simp [h2]), if_pos (by simp [h3])]
            refine ⟨Or.inr hred, ?_⟩
            constructor
            · intro habs
              rw [hred] at habs
              have hfst := congrArg Prod.fst habs
              simp at hfst
            · rintro ⟨a, b, ha, hb, -, -, -, hal⟩
              cases Option.some_inj.mp ha
              cases Option.some_inj.mp hb
              exact absurd hal h3
        · have hred : upload_files registry ⟨some img, some mat⟩ newId =
              (400, registry) := by
            simp only [upload_files, if_neg h1]
            rw [if_pos (by simp [h2])]
          refine ⟨Or.inr hred, ?_⟩
          constructor
          · intro habs
            rw [hred] at habs
            have hfst := congrArg Prod.fst habs
            simp at hfst
          · rintro ⟨a, b, ha, hb, -, -, hal, -⟩
            cases Option.some_inj.mp ha
            cases Option.some_inj.mp hb
            exact absurd hal h2

theorem upload_validation_witness :
    upload_files [] { image := some "a.PNG", materials := some "b.csv" } "j1" =
      (200, [("j1", uploadedJob)]) :=
  (upload_validation [] { image := some "a.PNG", materials := some "b.csv" } "j1").2.mpr
    ⟨"a.PNG", "b.csv", rfl, rfl, by decide, by decide, by decide, by decide⟩

/-- Helper: dividing a triple with components in `[0, 255]` by 255 lands it in
`[0, 1]`. -/
theorem divTriple_range (c : ℚ × ℚ × ℚ) (h : inRange 0 255 c) :
    inRange 0 1 (divTriple c) := by
  obtain ⟨h1, h2, h3, h4, h5, h6⟩ := h
  refine ⟨?_, ?_, ?_, ?_, ?_, ?_⟩ <;>
    simp only [divTriple] <;>
    first
      | exact div_nonneg (by assumption) (by norm_num)
      | exact (div_le_one (by norm_num)).mpr (by assumption)

/-- Claim C6: before reaching the optimization core, material colors are
divided by 255, the target image is resized externally to
`stl_output_size // processing_reduction_factor` on both axes and its pixels
divided by 255, and the background triple is divided by 255; each division
maps 0-255 inputs into `[0, 1]`. -/
theorem core_inputs_normalized (materials : RawMaterials) (img : Image)
    (resizeF : Image → Nat → Nat → Image) (bg : ℚ × ℚ × ℚ)
    (stl fac : Nat) :
    (prepareCoreInputs materials img resizeF bg stl fac).processing_size = stl / fac
    ∧ (prepareCoreInputs materials img resizeF bg stl fac).material_colors =
        materials.colors.map divTriple
    ∧ (prepareCoreInputs materials img resizeF bg stl fac).target_tensor =
        (resizeF img (stl / fac) (stl / fac)).map (List.map divTriple)
    ∧ (prepareCoreInputs materials img resizeF bg stl fac).background_tensor =
        divTriple bg
    ∧ (triplesIn 0 255 materials.colors →
        triplesIn 0 1 (prepareCoreInputs materials img resizeF bg stl fac).material_colors)
    ∧ (inRange 0 255 bg →
        inRange 0 1 (prepareCoreInputs materials img resizeF bg stl fac).background_tensor)
    ∧ ((∀ row ∈ resizeF img (stl / fac) (stl / fac), triplesIn 0 255 row) →
        ∀ row ∈ (prepareCoreInputs materials img resizeF bg stl fac).target_tensor,
          triplesIn 0 1 row) := by
  refine ⟨rfl, rfl, rfl, rfl, ?_, ?_, ?_⟩
  · intro h c hc
    simp only [prepareCoreInputs, List.mem_map] at hc
    obtain ⟨a, ha, rfl⟩ := hc
    exact divTriple_range a (h a ha)
  · intro h
    exact divTriple_range bg h
  · intro h row hrow
    simp only [prepareCoreInputs, List.mem_map] at hrow
    obtain ⟨r0, hr0, rfl⟩ := hrow
    intro c hc
    simp only [List.mem_map] at hc
    obtain ⟨a, ha, rfl⟩ := hc
    exact divTriple_range a (h r0 hr0 a ha)

theorem core_inputs_normalized_witness :
    (prepareCoreInputs { colors := [(255, 0, 51)], TDs := [1] } [[(10, 20, 30)]]
        (fun im _ _ => im) (0, 0, 0) 150 2).processing_size = 75
    ∧ triplesIn 0 1 (prepareCoreInputs { colors := [(255, 0, 51)], TDs := [1] }
        [[(10, 20, 30)]] (fun im _ _ => im) (0, 0, 0) 150 2).material_colors := by
  have h := core_inputs_normalized { colors := [(255, 0, 51)], TDs := [1] }
    [[(10, 20, 30)]] (fun im _ _ => im) (0, 0, 0) 150 2
  exact ⟨h.1.trans rfl, h.2.2.2.2.1 (by decide)⟩

/-- Claim C7 (spec-modelled core validation): when `min_layers > max_layers`
the `ConfigError` is raised where the core is constructed, before the loop:
the worker marks the job `failed` with the `ConfigError` message and the
optimization loop is never entered, so the job does not proceed to a normal
optimization run. -/
theorem config_error_rejects {σ : Type} (job : Job) (min_layers max_layers : Int)
    (cancelled cbFail : Nat → Bool) (step : σ → σ) (s0 : σ) (iterations : Nat)
    (h : max_layers < min_layers) :
    runWithConfig job min_layers max_layers cancelled cbFail step s0 iterations =
      ({ job with status := "failed",
                  error := some "ConfigError: min_layers > max_layers" }, none) := by
  unfold runWithConfig configCheck
  rw [if_pos h]

theorem config_error_rejects_witness :
    runWithConfig uploadedJob 10 5 (fun _ => false) (fun _ => false)
        Nat.succ (0 : Nat) 100 =
      ({ uploadedJob with status := "failed",
                          error := some "ConfigError: min_layers > max_layers" }, none) :=
  config_error_rejects uploadedJob 10 5 (fun _ => false) (fun _ => false)
    Nat.succ 0 100 (by norm_num)

/-- Claim C8 (spec-modelled schedule): the temperature `tau` is monotonically
non-increasing across iterations whenever `final_tau ≤ init_tau`, the warmup
fraction is non-negative and there is at least one iteration; and under the
default `warmup_fraction = 1.0` it equals exactly `final_tau` at the final
iteration `iterations - 1`. -/
theorem tau_schedule_spec (init_tau final_tau wf : ℚ) (iterations : Nat)
    (hfi : final_tau ≤ init_tau) (hwf : 0 ≤ wf) (hit : 1 ≤ iterations) :
    (∀ i : Nat, tauSchedule init_tau final_tau wf iterations (i + 1) ≤
        tauSchedule init_tau final_tau wf iterations i)
    ∧ (wf = 1 → 2 ≤ iterations →
        tauSchedule init_tau final_tau wf iterations (iterations - 1) = final_tau) := by
  constructor
  · intro i
    unfold tauSchedule
    push_cast
    have hD : 0 ≤ wf * ((iterations : ℚ) - 1) := by
      apply mul_nonneg hwf
      have h1 : (1 : ℚ) ≤ (iterations : ℚ) := by exact_mod_cast hit
      linarith
    rcases eq_or_lt_of_le hD with hD0 | hDpos
    · rw [← hD0]
      simp [div_zero]
    · have hmin : min 1 ((i : ℚ) / (wf * ((iterations : ℚ) - 1))) ≤
          min 1 (((i : ℚ) + 1) / (wf * ((iterations : ℚ) - 1))) := by
        apply min_le_min le_rfl
        exact (div_le_div_iff_of_pos_right hDpos).mpr (by linarith)
      apply add_le_add_left
      exact mul_le_mul_of_nonpos_left hmin (by linarith)
  · intro hwf1 hit2
    subst hwf1
    unfold tauSchedule
    have hne : ((iterations : ℚ) - 1) ≠ 0 := by
      have h2 : (2 : ℚ) ≤ (iterations : ℚ) := by exact_mod_cast hit2
      intro h
      linarith
    have hcast : (((iterations - 1 : Nat)) : ℚ) = (iterations : ℚ) - 1 := by
      push_cast [Nat.cast_sub (by omega : 1 ≤ iterations)]
      ring
    rw [hcast, one_mul, div_self hne, min_self]
    ring

theorem tau_schedule_spec_witness :
    tauSchedule 1 (1 / 100) 1 10 4 ≤ tauSchedule 1 (1 / 100) 1 10 3
    ∧ tauSchedule 1 (1 / 100) 1 10 9 = 1 / 100 := by
  have h := tau_schedule_spec 1 (1 / 100) 1 10 (by norm_num) (by norm_num) (by norm_num)
  exact ⟨h.1 3, h.2 rfl (by norm_num)⟩

end AutoForge
